import Mathlib

/-!
Formal model of the EDA-python repository.

The pandas operations used in `EDA.ipynb`, `Readme.md` and the lecture
notes are embedded as executable functions over rational-valued columns,
and the documented properties are proved or refuted against this model.
Numeric column values are rationals; a column with missing entries is a
list of optional rationals; quantiles follow the pandas default linear
interpolation.
-/

attribute [local semireducible] Rat.add Rat.sub Rat.mul Rat.inv Rat.ofScientific

namespace EDA

/-- Insert a rational into a sorted list, keeping it sorted. -/
def insertSorted (x : ℚ) : List ℚ → List ℚ
  | [] => [x]
  | y :: ys => if x ≤ y then x :: y :: ys else y :: insertSorted x ys

/-- Sort a list of rationals in nondecreasing order (insertion sort). -/
def sortQ (xs : List ℚ) : List ℚ := xs.foldr insertSorted []

/-- Floor of a rational as an integer (floor division of numerator by denominator). -/
def floorQ (q : ℚ) : ℤ := Int.fdiv q.num (q.den : ℤ)

/-- Linear-interpolation quantile, the pandas `Series.quantile` default: on the
sorted values `s` of length `n`, the quantile at `q` sits at fractional
position `h = (n-1)*q`; with `i` the floor of `h` the result interpolates
between `s[i]` and `s[i+1]`. -/
def quantile (xs : List ℚ) (q : ℚ) : ℚ :=
  let s := sortQ xs
  if s.length = 0 then 0
  else
    let h : ℚ := ((s.length : ℚ) - 1) * q
    let i : ℕ := (floorQ h).toNat
    let lo := s.getD i 0
    let hi := s.getD (i + 1) lo
    lo + (h - (i : ℚ)) * (hi - lo)

/-- Median of a list of rationals, as pandas `Series.median` computes it on the
observed values: middle element of the sorted list, or the mean of the two
middle elements for an even length. -/
def medianQ (xs : List ℚ) : ℚ :=
  let s := sortQ xs
  if s.length % 2 = 1 then s.getD (s.length / 2) 0
  else (s.getD (s.length / 2 - 1) 0 + s.getD (s.length / 2) 0) / 2

/-- Notebook `Removing outliers` cell: `planes["Price"].quantile(0.75)`. -/
def price_seventy_fifth (xs : List ℚ) : ℚ := quantile xs (3/4)

/-- Notebook `Removing outliers` cell: `planes["Price"].quantile(0.25)`. -/
def price_twenty_fifth (xs : List ℚ) : ℚ := quantile xs (1/4)

/-- Notebook `Removing outliers` cell: `prices_iqr = price_seventy_fifth - price_twenty_fifth`. -/
def prices_iqr (xs : List ℚ) : ℚ := price_seventy_fifth xs - price_twenty_fifth xs

/-- Notebook `Removing outliers` cell: `upper = price_seventy_fifth + (1.5 * prices_iqr)`. -/
def upper (xs : List ℚ) : ℚ := price_seventy_fifth xs + 3/2 * prices_iqr xs

/-- Notebook `Removing outliers` cell: `lower = price_twenty_fifth - (1.5 * prices_iqr)`. -/
def lower (xs : List ℚ) : ℚ := price_twenty_fifth xs - 3/2 * prices_iqr xs

/-- Readme `Detect Outliers`: `Q1 = df["col"].quantile(0.25)`. -/
def Q1 (xs : List ℚ) : ℚ := quantile xs (1/4)

/-- Readme `Detect Outliers`: `Q3 = df["col"].quantile(0.75)`. -/
def Q3 (xs : List ℚ) : ℚ := quantile xs (3/4)

/-- Readme `Detect Outliers`: `IQR = Q3 - Q1`. -/
def IQR (xs : List ℚ) : ℚ := Q3 xs - Q1 xs

/-- Readme `Detect Outliers`: `lower_limit = Q1 - 1.5 * IQR`. -/
def lower_limit (xs : List ℚ) : ℚ := Q1 xs - 3/2 * IQR xs

/-- Readme `Detect Outliers`: `upper_limit = Q3 + 1.5 * IQR`. -/
def upper_limit (xs : List ℚ) : ℚ := Q3 xs + 3/2 * IQR xs

/-- Readme `Remove Outliers`: the rows kept by
`df[(df["col"] >= lower_limit) & (df["col"] <= upper_limit)]`. -/
def keepInclusive (xs : List ℚ) : List ℚ :=
  xs.filter (fun v => decide (lower_limit xs ≤ v ∧ v ≤ upper_limit xs))

/-- Notebook and notes removal step: the rows kept by
`salaries[(salaries["Salary_USD"] > lower_limit) & (salaries["Salary_USD"] < upper_limit)]`
(the notebook's `planes[(planes["Price"] > lower) & (planes["Price"] < upper)]`
is the same strict filter). -/
def salaries_no_outliers (xs : List ℚ) : List ℚ :=
  xs.filter (fun v => decide (lower xs < v ∧ v < upper xs))

/-- Definitional bridge between the notebook's and the Readme's lower threshold. -/
theorem lower_eq_lower_limit (xs : List ℚ) : lower xs = lower_limit xs := rfl

/-- Definitional bridge between the notebook's and the Readme's upper threshold. -/
theorem upper_eq_upper_limit (xs : List ℚ) : upper xs = upper_limit xs := rfl

/-- C1: for every numeric column, both the Readme's and the notebook's outlier
thresholds are computed as `Q1 - 1.5*IQR` and `Q3 + 1.5*IQR`, where `Q1` and
`Q3` are the 25th- and 75th-percentile values of the column and `IQR` is their
difference. -/
theorem iqr_outlier_thresholds (xs : List ℚ) :
    IQR xs = quantile xs (3/4) - quantile xs (1/4)
      ∧ lower_limit xs = quantile xs (1/4) - 3/2 * IQR xs
      ∧ upper_limit xs = quantile xs (3/4) + 3/2 * IQR xs
      ∧ lower xs = lower_limit xs
      ∧ upper xs = upper_limit xs :=
  ⟨rfl, rfl, rfl, rfl, rfl⟩

/-- C3 as stated is false: on the column `[1, 1, 1]` the quartiles coincide, so
the thresholds are both `1`; the Readme's inclusive filter keeps all three rows
while the notebook's strict filter keeps none. -/
theorem inclusive_and_strict_filters_differ :
    keepInclusive [(1 : ℚ), 1, 1] ≠ salaries_no_outliers [(1 : ℚ), 1, 1] := by
  decide

/-- C3 amended: the strict notebook filter keeps a subset of the rows the
inclusive Readme filter keeps, and the two removal steps select exactly the
same rows whenever no value of the column equals one of the thresholds. -/
theorem strict_filter_refines_inclusive (xs : List ℚ) :
    (∀ v, v ∈ salaries_no_outliers xs → v ∈ keepInclusive xs)
      ∧ ((∀ v ∈ xs, v ≠ lower_limit xs ∧ v ≠ upper_limit xs) →
          salaries_no_outliers xs = keepInclusive xs) := by
  constructor
  · intro v hv
    unfold salaries_no_outliers at hv
    rw [List.mem_filter] at hv
    have hp := of_decide_eq_true hv.2
    exact List.mem_filter.mpr
      ⟨hv.1, decide_eq_true ⟨le_of_lt hp.1, le_of_lt hp.2⟩⟩
  · intro h
    unfold salaries_no_outliers keepInclusive
    apply List.filter_congr
    intro v hv
    obtain ⟨h1, h2⟩ := h v hv
    apply decide_eq_decide.mpr
    constructor
    · rintro ⟨a, b⟩
      exact ⟨le_of_lt a, le_of_lt b⟩
    · rintro ⟨a, b⟩
      exact ⟨lt_of_le_of_ne a h1.symm, lt_of_le_of_ne b h2⟩

/-- Witness: on `[1, 2, 3, 4, 100]` the thresholds are `-1` and `7`, no value
equals them, and the two filters agree; also `2` survives both. -/
theorem strict_filter_refines_inclusive_witness :
    salaries_no_outliers [(1 : ℚ), 2, 3, 4, 100] = keepInclusive [(1 : ℚ), 2, 3, 4, 100]
      ∧ (2 : ℚ) ∈ keepInclusive [(1 : ℚ), 2, 3, 4, 100] :=
  ⟨(strict_filter_refines_inclusive [(1 : ℚ), 2, 3, 4, 100]).2 (by decide),
    (strict_filter_refines_inclusive [(1 : ℚ), 2, 3, 4, 100]).1 2 (by decide)⟩

/-- C10 as stated is false: the notebook's outlier-removal step is a
deterministic operation with a fully specified output; on the concrete Price
column `[2, 3, 4, 100]` two runs on equal inputs give equal outputs and the
result is exactly `[2, 3, 4]`. -/
theorem outlier_removal_specifiable :
    salaries_no_outliers [(2 : ℚ), 3, 4, 100] = salaries_no_outliers [(2 : ℚ), 3, 4, 100]
      ∧ salaries_no_outliers [(2 : ℚ), 3, 4, 100] = [2, 3, 4] :=
  ⟨rfl, by decide⟩

/-- C10 amended: the documented IQR outlier-removal operation is a
deterministic function of its input column, and its behavior satisfies an
invariant: two runs on equal inputs produce equal outputs, and every kept
value lies strictly between the two thresholds. -/
theorem outlier_removal_deterministic (xs ys : List ℚ) (h : xs = ys) :
    salaries_no_outliers xs = salaries_no_outliers ys
      ∧ ∀ v ∈ salaries_no_outliers xs, lower xs < v ∧ v < upper xs := by
  subst h
  refine ⟨rfl, ?_⟩
  intro v hv
  unfold salaries_no_outliers at hv
  rw [List.mem_filter] at hv
  exact of_decide_eq_true hv.2

/-- Witness: determinism and the threshold invariant at the column `[2, 3, 100]`. -/
theorem outlier_removal_deterministic_witness :
    salaries_no_outliers [(2 : ℚ), 3, 100] = salaries_no_outliers [(2 : ℚ), 3, 100]
      ∧ (lower [(2 : ℚ), 3, 100] < 2 ∧ 2 < upper [(2 : ℚ), 3, 100]) :=
  ⟨(outlier_removal_deterministic [(2 : ℚ), 3, 100] [(2 : ℚ), 3, 100] rfl).1,
    (outlier_removal_deterministic [(2 : ℚ), 3, 100] [(2 : ℚ), 3, 100] rfl).2 2 (by decide)⟩

/-- Notebook cell `planes.dropna(subset=cols_to_drop, inplace=True)`, viewed on
the single remaining column with missing values: the in-place mutation keeps
exactly the rows whose entry is present. -/
def dropnaCell (planes : List (Option ℚ)) : List (Option ℚ) :=
  planes.filter (fun v => v.isSome)

/-- Notebook cells `print(planes.isna().sum())`: the number of missing entries
of the column. -/
def isnaSum (planes : List (Option ℚ)) : ℕ :=
  (planes.filter (fun v => v.isNone)).length

/-- C5 as stated is false: the missing-count cell's result depends on whether
the in-place `dropna` mutation of `planes` ran before it; on the column
`[some 1, none]` the count is `0` after the mutation and `1` without it. -/
theorem isna_cell_depends_on_dropna_cell :
    isnaSum (dropnaCell [some (1 : ℚ), none]) ≠ isnaSum [some (1 : ℚ), none] := by
  decide

/-- C5 amended: notebook cells do share mutable state; whenever the `planes`
column has a missing entry, the in-place `dropna` mutation changes the result
that a later `planes.isna().sum()` cell produces. -/
theorem cells_share_planes_state (planes : List (Option ℚ)) (h : none ∈ planes) :
    isnaSum (dropnaCell planes) ≠ isnaSum planes := by
  have h0 : isnaSum (dropnaCell planes) = 0 := by
    unfold isnaSum dropnaCell
    rw [List.length_eq_zero]
    rw [List.filter_eq_nil_iff]
    intro v hv
    rw [List.mem_filter] at hv
    rcases v with _ | x
    · simp at hv
    · simp
  have h1 : isnaSum planes ≠ 0 := by
    unfold isnaSum
    have hm : (none : Option ℚ) ∈ planes.filter (fun v => v.isNone) :=
      List.mem_filter.mpr ⟨h, rfl⟩
    have hne := List.ne_nil_of_mem hm
    simpa [List.length_eq_zero] using hne
  rw [h0]
  exact fun e => h1 e.symm

/-- Witness: the shared-state effect at the concrete column `[none, some 2, none]`. -/
theorem cells_share_planes_state_witness :
    none ∈ [(none : Option ℚ), some 2, none]
      ∧ isnaSum (dropnaCell [(none : Option ℚ), some 2, none])
          ≠ isnaSum [(none : Option ℚ), some 2, none] :=
  ⟨by decide, cells_share_planes_state [(none : Option ℚ), some 2, none] (by decide)⟩

/-- Missing-value count of column `c` over a DataFrame given as a list of rows;
a row is a list of optional cells and `c` indexes into it, so this is the
`df.isna().sum()` entry for that column. -/
def missingCount (df : List (List (Option ℚ))) (c : ℕ) : ℕ :=
  (df.filter (fun r => (r.getD c none).isNone)).length

/-- Notebook: `threshold = len(planes) * 0.05`. -/
def threshold (df : List (List (Option ℚ))) : ℚ := (df.length : ℚ) * (5 / 100)

/-- Notebook: `cols_to_drop = planes.columns[planes.isna().sum() <= threshold]`. -/
def cols_to_drop (df : List (List (Option ℚ))) (cols : List ℕ) : List ℕ :=
  cols.filter (fun c => decide ((missingCount df c : ℚ) ≤ threshold df))

/-- Notebook: `planes.dropna(subset=cols_to_drop)`: keep the rows that have no
missing entry in any column of the subset. -/
def dropna (df : List (List (Option ℚ))) (sub : List ℕ) : List (List (Option ℚ)) :=
  df.filter (fun r => sub.all (fun c => (r.getD c none).isSome))

/-- C6: after the five-percent drop step, every column selected into
`cols_to_drop` has zero missing values, and no column's missing count
increases (a non-selected column's count can only decrease or stay equal). -/
theorem dropna_threshold_columns (df : List (List (Option ℚ))) (cols : List ℕ) :
    (∀ c ∈ cols_to_drop df cols,
        missingCount (dropna df (cols_to_drop df cols)) c = 0)
      ∧ (∀ c : ℕ, missingCount (dropna df (cols_to_drop df cols)) c ≤ missingCount df c) := by
  constructor
  · intro c hc
    unfold missingCount
    rw [List.length_eq_zero]
    rw [List.filter_eq_nil_iff]
    intro r hr
    unfold dropna at hr
    rw [List.mem_filter] at hr
    have hs := List.all_eq_true.mp hr.2 c hc
    rcases hop : r.getD c none with _ | x
    · rw [hop] at hs
      simp at hs
    · simp
  · intro c
    unfold missingCount dropna
    exact List.Sublist.length_le (List.Sublist.filter _ (List.filter_sublist df))

/-- Witness: on the DataFrame `[[some 1], [some 2]]` column `0` is selected
(zero missing values, below the threshold) and keeps zero missing values. -/
theorem dropna_threshold_columns_witness :
    0 ∈ cols_to_drop [[some (1 : ℚ)], [some 2]] [0]
      ∧ missingCount
          (dropna [[some (1 : ℚ)], [some 2]] (cols_to_drop [[some (1 : ℚ)], [some 2]] [0])) 0 = 0 :=
  ⟨by decide, (dropna_threshold_columns [[some (1 : ℚ)], [some 2]] [0]).1 0 (by decide)⟩

/-- Observed (non-missing) values of the numeric column among the rows whose
category equals `a`: the `groupby` group that pandas aggregates, NaN entries
skipped. -/
def groupVals {α : Type} [DecidableEq α] (rows : List (α × Option ℚ)) (a : α) : List ℚ :=
  rows.filterMap (fun r => if r.1 = a then r.2 else none)

/-- Notebook `airline_prices` / `prices_dict`: the dictionary obtained from
`planes.groupby("Airline")["Price"].median().to_dict()`; a group with no
observed value has a missing (NaN) median. -/
def prices_dict {α : Type} [DecidableEq α] (rows : List (α × Option ℚ)) (a : α) : Option ℚ :=
  if groupVals rows a = [] then none else some (medianQ (groupVals rows a))

/-- Image of one row under the notebook's
`planes["Price"].fillna(planes["Airline"].map(prices_dict))`: a missing price
is replaced by its category's dictionary entry, a present price is kept. -/
def imputeVal {α : Type} [DecidableEq α] (rows : List (α × Option ℚ)) (r : α × Option ℚ) :
    α × Option ℚ :=
  (r.1, match r.2 with
        | some v => some v
        | none => prices_dict rows r.1)

/-- Whole-column effect of the notebook's fillna-map imputation. -/
def imputePrices {α : Type} [DecidableEq α] (rows : List (α × Option ℚ)) :
    List (α × Option ℚ) :=
  rows.map (imputeVal rows)

/-- C2: group-based imputation leaves every non-missing value unchanged, and
replaces a missing value whose category has at least one observed value with
the median of the column over the rows sharing that category value. -/
theorem group_median_imputation {α : Type} [DecidableEq α]
    (rows : List (α × Option ℚ)) (a : α) (v : ℚ) :
    imputeVal rows (a, some v) = (a, some v)
      ∧ (groupVals rows a ≠ [] →
          imputeVal rows (a, none) = (a, some (medianQ (groupVals rows a))))
      ∧ imputePrices rows = rows.map (imputeVal rows) := by
  refine ⟨rfl, fun h => ?_, rfl⟩
  simp [imputeVal, prices_dict, h]

/-- Witness: with Airline group `"A"` holding prices `{2, missing, 4}`, the
missing price is imputed with the group median. -/
theorem group_median_imputation_witness :
    groupVals [("A", some (2 : ℚ)), ("A", none), ("A", some 4)] "A" ≠ []
      ∧ imputeVal [("A", some (2 : ℚ)), ("A", none), ("A", some 4)] ("A", none)
          = ("A", some (medianQ (groupVals [("A", some (2 : ℚ)), ("A", none), ("A", some 4)] "A"))) :=
  ⟨by decide,
    (group_median_imputation [("A", some (2 : ℚ)), ("A", none), ("A", some 4)] "A" 0).2.1
      (by decide)⟩

/-- Count accumulated by `pd.crosstab(A, B)` at cell `(a, b)`, scanning the
rows of the table one by one. -/
def crosstabCount {α β : Type} [DecidableEq α] [DecidableEq β] :
    List (α × β × ℚ) → α → β → ℕ
  | [], _, _ => 0
  | r :: rs, a, b => (if r.1 = a ∧ r.2.1 = b then 1 else 0) + crosstabCount rs a b

/-- Sum of the `values` column accumulated at cell `(a, b)` by an aggregating
`pd.crosstab(A, B, values=V, aggfunc=...)`. -/
def cellSum {α β : Type} [DecidableEq α] [DecidableEq β] :
    List (α × β × ℚ) → α → β → ℚ
  | [], _, _ => 0
  | r :: rs, a, b => (if r.1 = a ∧ r.2.1 = b then r.2.2 else 0) + cellSum rs a b

/-- Values of the `values` column collected at cell `(a, b)`, in row order. -/
def cellVals {α β : Type} [DecidableEq α] [DecidableEq β] :
    List (α × β × ℚ) → α → β → List ℚ
  | [], _, _ => []
  | r :: rs, a, b =>
      if r.1 = a ∧ r.2.1 = b then r.2.2 :: cellVals rs a b else cellVals rs a b

/-- Entry of `pd.crosstab(A, B, values=V, aggfunc="mean")` at `(a, b)`: the
accumulated sum over the accumulated count, NaN (missing) for an empty cell. -/
def crosstabMeanEntry {α β : Type} [DecidableEq α] [DecidableEq β]
    (rows : List (α × β × ℚ)) (a : α) (b : β) : Option ℚ :=
  if crosstabCount rows a b = 0 then none
  else some (cellSum rows a b / (crosstabCount rows a b : ℚ))

/-- Entry of `pd.crosstab(A, B, values=V, aggfunc="median")` at `(a, b)`: the
median of the collected cell values, NaN (missing) for an empty cell. -/
def crosstabMedianEntry {α β : Type} [DecidableEq α] [DecidableEq β]
    (rows : List (α × β × ℚ)) (a : α) (b : β) : Option ℚ :=
  if crosstabCount rows a b = 0 then none
  else some (medianQ (cellVals rows a b))

/-- Mean of a list of rationals, missing for the empty list. -/
def meanOpt (vs : List ℚ) : Option ℚ :=
  if vs = [] then none else some (vs.sum / (vs.length : ℚ))

/-- Median of a list of rationals, missing for the empty list. -/
def medianOpt (vs : List ℚ) : Option ℚ :=
  if vs = [] then none else some (medianQ vs)

theorem crosstabCount_eq_filter_length {α β : Type} [DecidableEq α] [DecidableEq β]
    (rows : List (α × β × ℚ)) (a : α) (b : β) :
    crosstabCount rows a b
      = (rows.filter (fun r => decide (r.1 = a ∧ r.2.1 = b))).length := by
  induction rows with
  | nil => rfl
  | cons r rs ih =>
    by_cases h : r.1 = a ∧ r.2.1 = b
    · simp [crosstabCount, List.filter_cons, h, ih, Nat.add_comm]
    · simp [crosstabCount, List.filter_cons, h, ih]

theorem cellVals_eq_filter_map {α β : Type} [DecidableEq α] [DecidableEq β]
    (rows : List (α × β × ℚ)) (a : α) (b : β) :
    cellVals rows a b
      = (rows.filter (fun r => decide (r.1 = a ∧ r.2.1 = b))).map (fun r => r.2.2) := by
  induction rows with
  | nil => rfl
  | cons r rs ih =>
    by_cases h : r.1 = a ∧ r.2.1 = b
    · simp [cellVals, List.filter_cons, h, ih]
    · simp [cellVals, List.filter_cons, h, ih]

theorem cellSum_eq_filter_sum {α β : Type} [DecidableEq α] [DecidableEq β]
    (rows : List (α × β × ℚ)) (a : α) (b : β) :
    cellSum rows a b
      = ((rows.filter (fun r => decide (r.1 = a ∧ r.2.1 = b))).map (fun r => r.2.2)).sum := by
  induction rows with
  | nil => rfl
  | cons r rs ih =>
    by_cases h : r.1 = a ∧ r.2.1 = b
    · simp [cellSum, List.filter_cons, h, ih]
    · simp [cellSum, List.filter_cons, h, ih]

/-- C4: the `pd.crosstab(A, B)` entry at `(a, b)` is the number of rows with
`A = a` and `B = b`; with `values=V` and `aggfunc` mean (resp. median) the
entry is the mean (resp. median) of `V` over exactly those rows. -/
theorem crosstab_entries {α β : Type} [DecidableEq α] [DecidableEq β]
    (rows : List (α × β × ℚ)) (a : α) (b : β) :
    crosstabCount rows a b
        = (rows.filter (fun r => decide (r.1 = a ∧ r.2.1 = b))).length
      ∧ crosstabMeanEntry rows a b
        = meanOpt ((rows.filter (fun r => decide (r.1 = a ∧ r.2.1 = b))).map (fun r => r.2.2))
      ∧ crosstabMedianEntry rows a b
        = medianOpt ((rows.filter (fun r => decide (r.1 = a ∧ r.2.1 = b))).map (fun r => r.2.2)) := by
  have hc := crosstabCount_eq_filter_length rows a b
  have hv := cellVals_eq_filter_map rows a b
  have hs := cellSum_eq_filter_sum rows a b
  refine ⟨hc, ?_, ?_⟩
  · unfold crosstabMeanEntry meanOpt
    rw [hc, hs]
    by_cases h : rows.filter (fun r => decide (r.1 = a ∧ r.2.1 = b)) = []
    · rw [h]
      simp
    · have hlen : (rows.filter (fun r => decide (r.1 = a ∧ r.2.1 = b))).length ≠ 0 := by
        simpa [List.length_eq_zero] using h
      have hmap : (rows.filter (fun r => decide (r.1 = a ∧ r.2.1 = b))).map (fun r => r.2.2) ≠ [] := by
        simpa [List.map_eq_nil_iff] using h
      rw [if_neg hlen, if_neg hmap, List.length_map]
  · unfold crosstabMedianEntry medianOpt
    rw [hc, hv]
    by_cases h : rows.filter (fun r => decide (r.1 = a ∧ r.2.1 = b)) = []
    · rw [h]
      simp
    · have hlen : (rows.filter (fun r => decide (r.1 = a ∧ r.2.1 = b))).length ≠ 0 := by
        simpa [List.length_eq_zero] using h
      have hmap : (rows.filter (fun r => decide (r.1 = a ∧ r.2.1 = b))).map (fun r => r.2.2) ≠ [] := by
        simpa [List.map_eq_nil_iff] using h
      rw [if_neg hlen, if_neg hmap]

/-- Notebook `planes["Duration"].str.replace("h", "")`: remove every `h`
character from a Duration value, modelled as a list of characters. -/
def removeH (s : List Char) : List Char := s.filter (fun c => c != 'h')

/-- Character content accepted by Python `float()` after an optional sign:
digits and at most one decimal point, with at least one digit. -/
def isFloatBody (t : List Char) : Bool :=
  t.all (fun c => c.isDigit || c == '.') && decide (t.count '.' ≤ 1)
    && t.any (fun c => c.isDigit)

/-- Model of Python `float(s)` succeeding: an optional leading sign followed by
a float body. -/
def isFloatLit : List Char → Bool
  | [] => false
  | c :: rest => if c == '+' || c == '-' then isFloatBody rest else isFloatBody (c :: rest)

/-- Shape named by the claim: a numeric literal optionally followed by `h`
(such as `"19"` or `"19h"`). -/
def numLitOptH (s : List Char) : Bool :=
  isFloatLit s || (decide (s ≠ []) && (s.getLast? == some 'h') && isFloatLit s.dropLast)

/-- Column image of the notebook's `str.replace("h", "")` step. -/
def durationStripped (col : List (List Char)) : List (List Char) := col.map removeH

/-- Success of `astype(float)` on a column: every value must parse. -/
def astypeFloatOk (col : List (List Char)) : Bool := col.all isFloatLit

/-- Success of the whole flight-duration cleaning cell:
`str.replace("h", "")` followed by `astype(float)`. -/
def durationCellOk (col : List (List Char)) : Bool := astypeFloatOk (durationStripped col)

/-- C7 as stated is false in its only-if direction: on the one-value column
`["1h9"]` the cleaning cell succeeds (stripping `h` leaves `"19"`), yet the
value is not a numeric literal optionally followed by `h`. -/
theorem duration_cell_accepts_non_suffix_h :
    durationCellOk [['1', 'h', '9']] = true ∧ numLitOptH ['1', 'h', '9'] = false :=
  ⟨by decide, by decide⟩

theorem body_char_ne_h (c : Char) (hc : (c.isDigit || c == '.') = true) :
    (c != 'h') = true := by
  rcases eq_or_ne c 'h' with rfl | h
  · exact absurd hc (by decide)
  · exact bne_iff_ne.mpr h

theorem removeH_of_floatBody (t : List Char) (h : isFloatBody t = true) :
    removeH t = t := by
  unfold removeH
  rw [List.filter_eq_self]
  intro c hc
  have hall : t.all (fun c => c.isDigit || c == '.') = true := by
    unfold isFloatBody at h
    simp only [Bool.and_eq_true] at h
    exact h.1.1
  exact body_char_ne_h c (List.all_eq_true.mp hall c hc)

theorem removeH_of_isFloatLit (s : List Char) (h : isFloatLit s = true) :
    removeH s = s := by
  cases s with
  | nil => rfl
  | cons c rest =>
    simp only [isFloatLit] at h
    by_cases hc : (c == '+' || c == '-') = true
    · rw [if_pos hc] at h
      have hcne : (c != 'h') = true := by
        simp only [Bool.or_eq_true] at hc
        rcases hc with h1 | h1
        · have : c = '+' := by simpa using h1
          subst this
          decide
        · have : c = '-' := by simpa using h1
          subst this
          decide
      have hrest : removeH rest = rest := removeH_of_floatBody rest h
      unfold removeH at hrest ⊢
      simp [List.filter_cons, hcne, hrest]
    · rw [if_neg hc] at h
      exact removeH_of_floatBody (c :: rest) h

theorem isFloatLit_removeH_of_numLitOptH (s : List Char) (h : numLitOptH s = true) :
    isFloatLit (removeH s) = true := by
  unfold numLitOptH at h
  simp only [Bool.or_eq_true, Bool.and_eq_true] at h
  rcases h with h1 | ⟨⟨hne, hlast⟩, hdrop⟩
  · rw [removeH_of_isFloatLit s h1]
    exact h1
  ·
    have hne' : s ≠ [] := of_decide_eq_true hne
    rcases List.eq_nil_or_concat s with rfl | ⟨t, a, rfl⟩
    · exact absurd rfl hne'
    · simp only [List.concat_eq_append] at hdrop hlast ⊢
      have hdl : (t ++ [a]).dropLast = t := List.dropLast_concat
      have hga : (t ++ [a]).getLast? = some a := List.getLast?_concat t
      have ha : a = 'h' := by
        rw [hga] at hlast
        simpa using hlast
      have hlit : isFloatLit t = true := by rwa [hdl] at hdrop
      subst ha
      have hrw : removeH (t ++ ['h']) = t := by
        unfold removeH
        rw [List.filter_append]
        have h2 : List.filter (fun c => c != 'h') ['h'] = [] := by decide
        rw [h2, List.append_nil]
        have ht := removeH_of_isFloatLit t hlit
        unfold removeH at ht
        exact ht
      rw [hrw]
      exact hlit

/-- C7 amended: the flight-duration cleaning cell succeeds exactly when every
Duration value with its `h` characters removed parses as a float literal; in
particular it succeeds whenever every value is a numeric literal optionally
followed by `h`, and it fails on a column containing a minutes part such as
the `"5h 25m"` shown in the notebook. -/
theorem duration_replace_astype (col : List (List Char)) :
    (durationCellOk col = true ↔ ∀ s ∈ col, isFloatLit (removeH s) = true)
      ∧ (∀ s ∈ col, numLitOptH s = true → isFloatLit (removeH s) = true)
      ∧ durationCellOk [['5', 'h', ' ', '2', '5', 'm']] = false := by
  refine ⟨?_, ?_, by decide⟩
  · unfold durationCellOk astypeFloatOk durationStripped
    rw [List.all_eq_true]
    constructor
    · intro h s hs
      exact h _ (List.mem_map_of_mem _ hs)
    · intro h x hx
      obtain ⟨s, hs, rfl⟩ := List.mem_map.mp hx
      exact h s hs
  · intro s _ h
    exact isFloatLit_removeH_of_numLitOptH s h

/-- Witness: the value `"19h"` has the numeric-literal-plus-`h` shape and
survives the cleaning step. -/
theorem duration_replace_astype_witness :
    numLitOptH ['1', '9', 'h'] = true
      ∧ isFloatLit (removeH ['1', '9', 'h']) = true :=
  ⟨by decide,
    (duration_replace_astype [['1', '9', 'h']]).2.1 ['1', '9', 'h'] (by decide) (by decide)⟩

/-- Model of `pd.cut(x, bins, labels)` with the default `right=True` and
`include_lowest=False`: scan the consecutive bin edges and return the label of
the first left-open right-closed interval containing `x`; a value on no
interval gets no label. -/
def pdCut {α : Type} (x : ℚ) : List ℚ → List α → Option α
  | b0 :: b1 :: bs, l :: ls =>
      if b0 < x ∧ x ≤ b1 then some l else pdCut x (b1 :: bs) ls
  | _, _ => none

/-- Lift of `pdCut` to a possibly missing cell value: `pd.cut` propagates NaN. -/
def pdCutOpt {α : Type} (v : Option ℚ) (bins : List ℚ) (labels : List α) : Option α :=
  v.bind (fun x => pdCut x bins labels)

/-- C8: with quartile bins `[0, q1, med, q3, mx]` and four labels, `pd.cut`
assigns a value equal to an interior boundary the lower adjacent label, the
maximum gets the top label, and a value equal to `0` or a missing value gets
no label. -/
theorem pd_cut_quartile_bins {α : Type} (q1 med q3 mx : ℚ) (l0 l1 l2 l3 : α)
    (h1 : 0 < q1) (h2 : q1 < med) (h3 : med < q3) (h4 : q3 < mx) :
    pdCutOpt (some q1) [0, q1, med, q3, mx] [l0, l1, l2, l3] = some l0
      ∧ pdCutOpt (some med) [0, q1, med, q3, mx] [l0, l1, l2, l3] = some l1
      ∧ pdCutOpt (some q3) [0, q1, med, q3, mx] [l0, l1, l2, l3] = some l2
      ∧ pdCutOpt (some mx) [0, q1, med, q3, mx] [l0, l1, l2, l3] = some l3
      ∧ pdCutOpt (some 0) [0, q1, med, q3, mx] [l0, l1, l2, l3] = none
      ∧ pdCutOpt (none : Option ℚ) [0, q1, med, q3, mx] [l0, l1, l2, l3] = none := by
  refine ⟨?_, ?_, ?_, ?_, ?_, rfl⟩
  · show pdCut q1 [0, q1, med, q3, mx] [l0, l1, l2, l3] = some l0
    simp only [pdCut]
    rw [if_pos ⟨h1, le_refl q1⟩]
  · show pdCut med [0, q1, med, q3, mx] [l0, l1, l2, l3] = some l1
    simp only [pdCut]
    rw [if_neg (fun hx => absurd hx.2 (not_le.mpr h2)),
      if_pos ⟨h2, le_refl med⟩]
  · show pdCut q3 [0, q1, med, q3, mx] [l0, l1, l2, l3] = some l2
    simp only [pdCut]
    rw [if_neg (fun hx => absurd hx.2 (not_le.mpr (h2.trans h3))),
      if_neg (fun hx => absurd hx.2 (not_le.mpr h3)),
      if_pos ⟨h3, le_refl q3⟩]
  · show pdCut mx [0, q1, med, q3, mx] [l0, l1, l2, l3] = some l3
    simp only [pdCut]
    rw [if_neg (fun hx => absurd hx.2 (not_le.mpr ((h2.trans h3).trans h4))),
      if_neg (fun hx => absurd hx.2 (not_le.mpr (h3.trans h4))),
      if_neg (fun hx => absurd hx.2 (not_le.mpr h4)),
      if_pos ⟨h4, le_refl mx⟩]
  · show pdCut 0 [0, q1, med, q3, mx] [l0, l1, l2, l3] = none
    simp only [pdCut]
    rw [if_neg (fun hx => absurd hx.1 (lt_irrefl 0)),
      if_neg (fun hx => absurd hx.1 (not_lt.mpr (le_of_lt h1))),
      if_neg (fun hx => absurd hx.1 (not_lt.mpr (le_of_lt (h1.trans h2)))),
      if_neg (fun hx => absurd hx.1 (not_lt.mpr (le_of_lt ((h1.trans h2).trans h3))))]

/-- Witness: the quartile binning at the concrete edges `1 < 2 < 3 < 4` assigns
the boundary value `1` the bottom label. -/
theorem pd_cut_quartile_bins_witness :
    pdCutOpt (some (1 : ℚ)) [0, 1, 2, 3, 4] ["entry", "mid", "senior", "exec"] = some "entry" :=
  (pd_cut_quartile_bins 1 2 3 4 "entry" "mid" "senior" "exec"
    (by norm_num) (by norm_num) (by norm_num) (by norm_num)).1

end EDA
